import Mathlib

/-!
Verification of the client-side editing/session core of the Umbrax Flux
image app (`src/components/Generator.tsx`, `src/services/imageUtils.ts`).

The React component's relevant state fields are embedded as a record
`GenState`; the event handlers become pure state transformers.  The remote
generative API is external, so each handler takes the outcome of its remote
call as an `Except` parameter.  Byte payloads (base64 strings) are kept as
`String`; canvas rasterisation (`applyWatermark`'s SVG compositing and PNG
re-encoding, `extendImage`'s pixel composition) is not expressible at the
byte-string level, so those two transformations enter the handlers as
opaque function parameters `wm`/`ext`, while the pixel-level operations of
`imageUtils.ts` (`applyOutline`, `cropImage`) are embedded directly on a
bitmap type `Img`.
-/

namespace Umbrax

/-- A single generated image version (`GeneratedImage` in the app's types):
display `base64` bytes, optional unwatermarked `cleanBase64` bytes. -/
structure GeneratedImage where
  id : Nat
  base64 : String
  cleanBase64 : Option String
  mimeType : String
  timestamp : Nat
deriving DecidableEq

/-- Selection rectangle in percent units (`SelectionBox` `{x,y,w,h}`). -/
structure SelectionBox where
  x : ℚ
  y : ℚ
  w : ℚ
  h : ℚ
deriving DecidableEq

/-- The rendered bounding rectangle of the displayed image element
(`imageRef.current.getBoundingClientRect()`). -/
structure Rect where
  left : ℚ
  top : ℚ
  width : ℚ
  height : ℚ
deriving DecidableEq

/-- JavaScript `a || b` on an optional string: falls back when `a` is
absent or the empty string (both falsy). -/
def jsOrString (a : Option String) (b : String) : String :=
  match a with
  | none => b
  | some t => if t = "" then b else t

/-- JavaScript truthiness of an optional string (`null`/`""` are falsy). -/
def strTruthy (o : Option String) : Bool :=
  match o with
  | none => false
  | some t => t ≠ ""

/-- JavaScript truthiness of `options.customRatioValue : number | undefined`. -/
def ratioValueTruthy (o : Option ℚ) : Bool :=
  match o with
  | none => false
  | some r => r ≠ 0

/-- The `Generator` component state restricted to the fields used by the
history, rate-limit, selection and session logic. -/
structure GenState where
  prompt : String
  editPrompt : String
  uploadedImage : Option String
  generatedImage : Option GeneratedImage
  history : List GeneratedImage
  historyIndex : Int
  gallery : List GeneratedImage
  hourlyUsage : List Int
  selectionBox : Option SelectionBox
  isTargetMode : Bool
  isDrawingBox : Bool
  drawStart : Option (ℚ × ℚ)
  isPanning : Bool
  pan : ℚ × ℚ
  panStart : ℚ × ℚ
  customRatioValue : Option ℚ
deriving DecidableEq

/-- The component's initial state (`useState` initialisers:
`history = []`, `historyIndex = -1`, everything else empty/off). -/
def initState : GenState :=
  { prompt := "", editPrompt := "", uploadedImage := none, generatedImage := none,
    history := [], historyIndex := -1, gallery := [], hourlyUsage := [],
    selectionBox := none, isTargetMode := false, isDrawingBox := false,
    drawStart := none, isPanning := false, pan := (0, 0), panStart := (0, 0),
    customRatioValue := none }

/-- JavaScript `Array.prototype.slice(0, e)`: a negative end counts from
the end of the array. -/
def jsSliceTo (l : List α) (e : Int) : List α :=
  if e < 0 then l.take ((l.length : Int) + e).toNat else l.take e.toNat

/-- `updateHistory` from `Generator.tsx`: a brand-new generation replaces
the history with the single new image (pointer 0); otherwise the history is
truncated at the pointer (`slice(0, historyIndex + 1)`), the image appended
and the pointer set to the new last index.  The image also becomes the
current image and is prepended to the gallery. -/
def updateHistory (s : GenState) (newImage : GeneratedImage)
    (isNewGeneration : Bool) : GenState :=
  if isNewGeneration then
    { s with history := [newImage], historyIndex := 0,
             generatedImage := some newImage, gallery := newImage :: s.gallery }
  else
    let newHistory := jsSliceTo s.history (s.historyIndex + 1) ++ [newImage]
    { s with history := newHistory,
             historyIndex := (newHistory.length : Int) - 1,
             generatedImage := some newImage, gallery := newImage :: s.gallery }

/-- `handleUndo`: decrement the pointer when it is positive. -/
def handleUndo (s : GenState) : GenState :=
  if 0 < s.historyIndex then
    let newIndex := s.historyIndex - 1
    { s with historyIndex := newIndex,
             generatedImage := s.history.get? newIndex.toNat }
  else s

/-- `handleRedo`: increment the pointer when it is before the last index. -/
def handleRedo (s : GenState) : GenState :=
  if s.historyIndex < (s.history.length : Int) - 1 then
    let newIndex := s.historyIndex + 1
    { s with historyIndex := newIndex,
             generatedImage := s.history.get? newIndex.toNat }
  else s

/-- `jumpToHistory`: set the pointer when the index is in bounds. -/
def jumpToHistory (s : GenState) (index : Int) : GenState :=
  if 0 ≤ index ∧ index < (s.history.length : Int) then
    { s with historyIndex := index,
             generatedImage := s.history.get? index.toNat }
  else s

/-- The history operations of the spec's Version History Manager, mapped to
the component's handlers. -/
inductive HistOp where
  | startNewTimeline (img : GeneratedImage)
  | appendVersion (img : GeneratedImage)
  | undo
  | redo
  | jumpTo (i : Int)
deriving DecidableEq

/-- Apply one history operation: `startNewTimeline` and `appendVersion` are
`updateHistory` with and without the `isNewGeneration` flag. -/
def applyHistOp (s : GenState) : HistOp → GenState
  | HistOp.startNewTimeline img => updateHistory s img true
  | HistOp.appendVersion img => updateHistory s img false
  | HistOp.undo => handleUndo s
  | HistOp.redo => handleRedo s
  | HistOp.jumpTo i => jumpToHistory s i

/-- Run a sequence of history operations from the initial component state. -/
def runHist (ops : List HistOp) : GenState :=
  ops.foldl applyHistOp initState

/-- `checkRateLimit`'s pruning step: keep the timestamps strictly younger
than one hour (`now - t < 3600000`). -/
def prune (usage : List Int) (now : Int) : List Int :=
  usage.filter (fun t => decide (now - t < 3600000))

/-- JavaScript `Math.min(...l)` over a non-empty spread. -/
def listMin : List Int → Int
  | [] => 0
  | h :: t => t.foldl min h

/-- Result of the rate-limit check: the decision, the pruned timestamp list
that is persisted, and the reset message's minute count when denied. -/
structure RateLimitResult where
  allowed : Bool
  usage : List Int
  minutesUntilReset : Option Int
deriving DecidableEq

/-- `checkRateLimit` from `Generator.tsx`: prune to the last hour; deny at
20 or more with `minsLeft = Math.ceil((oldest + oneHour - now) / 60000)`. -/
def checkRateLimit (usage : List Int) (now : Int) : RateLimitResult :=
  let valid := prune usage now
  if 20 ≤ valid.length then
    let oldest := listMin valid
    let resetTime := oldest + 3600000
    let minsLeft := Int.ceil ((resetTime - now : ℚ) / 60000)
    { allowed := false, usage := valid, minutesUntilReset := some minsLeft }
  else
    { allowed := true, usage := valid, minutesUntilReset := none }

/-- `handleGenerate`: guard on an empty prompt with no uploaded image,
pre-flight rate-limit check, remote `generateImage` call (outcome is the
`result` parameter), then watermark, keep clean bytes, start a new history
timeline and record usage.  On a thrown error only the pruned usage list is
kept.  Returns the new state and whether the remote call was issued. -/
def handleGenerate (wm : String → String) (s : GenState) (now : Int)
    (result : Except Unit GeneratedImage) : GenState × Bool :=
  if s.prompt.trim = "" ∧ strTruthy s.uploadedImage = false then (s, false)
  else
    let valid := prune s.hourlyUsage now
    if 20 ≤ valid.length then ({ s with hourlyUsage := valid }, false)
    else
      match result with
      | Except.error _ => ({ s with hourlyUsage := valid }, true)
      | Except.ok image =>
          let cleanBase64 := image.base64
          let watermarkedBase64 := wm image.base64
          let finalImage : GeneratedImage :=
            { image with base64 := watermarkedBase64, cleanBase64 := some cleanBase64 }
          let s1 := updateHistory { s with hourlyUsage := valid } finalImage true
          ({ s1 with hourlyUsage := valid ++ [now] }, true)

/-- `handleEdit`: guard on a missing image or empty edit prompt, rate-limit
check, then the remote `editImage` call on a source image whose bytes are
`cleanBase64 || base64`.  On success the result is watermarked for display,
its raw bytes kept as the new clean bytes, appended to history, usage
recorded, the edit prompt cleared, and the selection cleared unless a
custom ratio is active.  Returns the new state, whether the remote call was
issued, and the source bytes handed to it. -/
def handleEdit (wm : String → String) (s : GenState) (now : Int)
    (result : Except Unit GeneratedImage) : GenState × Bool × Option String :=
  match s.generatedImage with
  | none => (s, false, none)
  | some gimg =>
    if s.editPrompt.trim = "" then (s, false, none)
    else
      let valid := prune s.hourlyUsage now
      if 20 ≤ valid.length then ({ s with hourlyUsage := valid }, false, none)
      else
        let sent := jsOrString gimg.cleanBase64 gimg.base64
        match result with
        | Except.error _ => ({ s with hourlyUsage := valid }, true, some sent)
        | Except.ok image =>
            let cleanBase64 := image.base64
            let finalImage : GeneratedImage :=
              { image with base64 := wm image.base64, cleanBase64 := some cleanBase64 }
            let s1 := updateHistory { s with hourlyUsage := valid } finalImage false
            let s2 := { s1 with hourlyUsage := valid ++ [now], editPrompt := "" }
            let s3 := if ratioValueTruthy s.customRatioValue then s2
                      else { s2 with selectionBox := none, isTargetMode := false }
            (s3, true, some sent)

/-- `handleOutpaint`: guard on a missing image, rate-limit check, extend
the clean (fallback display) bytes via `extendImage` (the opaque `ext`),
build the intermediate extended image value, call the remote `editImage` on
it, and on success watermark and append ONLY the filled result to history,
then record usage.  Returns the new state, whether the remote call was
issued, and the bytes of the intermediate image sent to the model. -/
def handleOutpaint (wm ext : String → String) (s : GenState) (now : Int)
    (result : Except Unit GeneratedImage) : GenState × Bool × Option String :=
  match s.generatedImage with
  | none => (s, false, none)
  | some gimg =>
    let valid := prune s.hourlyUsage now
    if 20 ≤ valid.length then ({ s with hourlyUsage := valid }, false, none)
    else
      let sourceBase64 := jsOrString gimg.cleanBase64 gimg.base64
      let extendedBase64 := ext sourceBase64
      let extendedImage : GeneratedImage :=
        { gimg with id := now.toNat, base64 := extendedBase64,
                    cleanBase64 := some extendedBase64, timestamp := now.toNat }
      match result with
      | Except.error _ =>
          ({ s with hourlyUsage := valid }, true, some extendedImage.base64)
      | Except.ok filledImage =>
          let filledClean := filledImage.base64
          let finalImage : GeneratedImage :=
            { filledImage with base64 := wm filledClean, cleanBase64 := some filledClean }
          let s1 := updateHistory { s with hourlyUsage := valid } finalImage false
          ({ s1 with hourlyUsage := valid ++ [now] }, true, some extendedImage.base64)

/-- `handlePointerDown`: in selection mode, record the drag origin as raw
(unclamped) percentages of the image rect and start a zero-size box;
otherwise start panning. -/
def handlePointerDown (s : GenState) (rect : Rect) (clientX clientY : ℚ) :
    GenState :=
  match s.generatedImage with
  | none => s
  | some _ =>
    if s.isTargetMode then
      let xPct := (clientX - rect.left) / rect.width * 100
      let yPct := (clientY - rect.top) / rect.height * 100
      { s with isDrawingBox := true, drawStart := some (xPct, yPct),
               selectionBox := some { x := xPct, y := yPct, w := 0, h := 0 } }
    else
      { s with isPanning := true,
               panStart := (clientX - s.pan.1, clientY - s.pan.2) }

/-- `handlePointerMove`: while drawing, clamp the current point to
`[0,100]` and set the box to the rectangle spanned by it and the (raw)
origin; otherwise pan. -/
def handlePointerMove (s : GenState) (rect : Rect) (clientX clientY : ℚ) :
    GenState :=
  match s.generatedImage with
  | none => s
  | some _ =>
    match s.drawStart, s.isTargetMode && s.isDrawingBox with
    | some ds, true =>
        let currX := max 0 (min 100 ((clientX - rect.left) / rect.width * 100))
        let currY := max 0 (min 100 ((clientY - rect.top) / rect.height * 100))
        let newX := min ds.1 currX
        let newY := min ds.2 currY
        let newW := |currX - ds.1|
        let newH := |currY - ds.2|
        { s with selectionBox := some { x := newX, y := newY, w := newW, h := newH } }
    | _, _ =>
        if s.isPanning then
          { s with pan := (clientX - s.panStart.1, clientY - s.panStart.2) }
        else s

/-- `handlePointerUp`: clear the panning/drawing flags and the drag origin.
The selection box itself is left untouched. -/
def handlePointerUp (s : GenState) : GenState :=
  { s with isPanning := false, isDrawingBox := false, drawStart := none }

/-- The `useEffect` keyed on `generatedImage?.id`: with a custom aspect
ratio and a truthy custom ratio value, seed the crop-guide selection box
`{x:10, y:10, w:80, h:80/ratio}` and force selection mode on; otherwise
clear the box and leave selection mode off. -/
def onImageChangeSeed (aspectIsCustom : Bool) (customRatioValue : Option ℚ) :
    Option SelectionBox × Bool :=
  if aspectIsCustom && ratioValueTruthy customRatioValue then
    (some { x := 10, y := 10, w := 80, h := 80 / customRatioValue.getD 0 }, true)
  else (none, false)

/-- One RGBA pixel, channels 0..255 as stored in canvas `ImageData`. -/
structure Pix where
  r : Nat
  g : Nat
  b : Nat
  a : Nat
deriving DecidableEq

/-- A decoded bitmap: dimensions plus a pixel lookup. -/
structure Img where
  width : Nat
  height : Nat
  data : Nat → Nat → Pix

/-- The accent (cyan) pixel written for detected edges in `applyOutline`. -/
def cyanPix : Pix := { r := 34, g := 211, b := 238, a := 255 }

/-- The dark background pixel written for non-edges in `applyOutline`. -/
def bgPix : Pix := { r := 2, g := 6, b := 23, a := 255 }

/-- The transparent-black pixel `createImageData` initialises buffers to. -/
def zeroPix : Pix := { r := 0, g := 0, b := 0, a := 0 }

/-- One channel's Laplacian kernel sum at pixel `(x, y)`: the unrolled
3×3 loop of `applyOutline` with kernel `[0,1,0,1,-4,1,0,1,0]`. -/
def lapSum (img : Img) (ch : Pix → Nat) (x y : Nat) : Int :=
  (ch (img.data (x - 1) (y - 1)) : Int) * 0
  + (ch (img.data x (y - 1)) : Int) * 1
  + (ch (img.data (x + 1) (y - 1)) : Int) * 0
  + (ch (img.data (x - 1) y) : Int) * 1
  + (ch (img.data x y) : Int) * (-4)
  + (ch (img.data (x + 1) y) : Int) * 1
  + (ch (img.data (x - 1) (y + 1)) : Int) * 0
  + (ch (img.data x (y + 1)) : Int) * 1
  + (ch (img.data (x + 1) (y + 1)) : Int) * 0

/-- `applyOutline` from `imageUtils.ts`: for interior pixels
(`1 ≤ x < width-1`, `1 ≤ y < height-1`) sum the per-channel absolute
Laplacian responses, clip at 255, and write the accent pixel when the value
exceeds 30, the background pixel otherwise.  Pixels outside the loop range
keep the zero-initialised buffer contents. -/
def applyOutline (img : Img) : Img :=
  { width := img.width, height := img.height,
    data := fun x y =>
      if 1 ≤ x ∧ x + 1 < img.width ∧ 1 ≤ y ∧ y + 1 < img.height then
        let mag := (lapSum img Pix.r x y).natAbs + (lapSum img Pix.g x y).natAbs
          + (lapSum img Pix.b x y).natAbs
        let val := min 255 mag
        if 30 < val then cyanPix else bgPix
      else zeroPix }

/-- `cropImage` from `imageUtils.ts`: percentage box to pixel coordinates
by multiplying with the intrinsic dimensions; the canvas takes the box's
pixel width/height (assignment of a float to `canvas.width` truncates).
The pixel transfer is modelled at the truncated integer offsets. -/
def cropImage (img : Img) (box : SelectionBox) : Img :=
  let px : ℚ := box.x / 100 * img.width
  let py : ℚ := box.y / 100 * img.height
  let pw : ℚ := box.w / 100 * img.width
  let ph : ℚ := box.h / 100 * img.height
  { width := (Int.floor pw).toNat,
    height := (Int.floor ph).toNat,
    data := fun i j =>
      img.data (i + (Int.floor px).toNat) (j + (Int.floor py).toNat) }

/-- The stored version built from a raw model output: watermarked display
bytes, raw bytes retained as clean (the `finalImage` shape every handler
constructs). -/
def wmImage (wm : String → String) (image : GeneratedImage) : GeneratedImage :=
  { image with base64 := wm image.base64, cleanBase64 := some image.base64 }

/-- Concrete image fixture. -/
def imgA : GeneratedImage :=
  { id := 1, base64 := "AAA", cleanBase64 := none,
    mimeType := "image/png", timestamp := 1 }

/-- Concrete image fixture with distinct clean bytes. -/
def imgB : GeneratedImage :=
  { id := 2, base64 := "BBB", cleanBase64 := some "bbb",
    mimeType := "image/png", timestamp := 2 }

/-- Concrete image fixture. -/
def imgC : GeneratedImage :=
  { id := 3, base64 := "CCC", cleanBase64 := some "ccc",
    mimeType := "image/png", timestamp := 3 }

/-- A concrete remote-model result fixture. -/
def modelOut : GeneratedImage :=
  { id := 9, base64 := "RAW", cleanBase64 := none,
    mimeType := "image/png", timestamp := 9 }

/-- Concrete watermark stand-in for witnesses: visibly alters the bytes. -/
def wmF : String → String := fun t => "W" ++ t

/-- Concrete extend-canvas stand-in for witnesses. -/
def extF : String → String := fun t => "E" ++ t

/-- A concrete history-operation sequence exercising truncation. -/
def opsW : List HistOp :=
  [HistOp.startNewTimeline imgA, HistOp.appendVersion imgB, HistOp.undo,
   HistOp.appendVersion imgC, HistOp.redo, HistOp.jumpTo 0]

/-- A concrete session state holding a one-image history. -/
def outpaintS0 : GenState :=
  { initState with generatedImage := some imgA, history := [imgA],
                   historyIndex := 0 }

/-- A concrete session state in selection mode. -/
def selState : GenState :=
  { initState with generatedImage := some imgA, isTargetMode := true }

/-- A concrete image rect: left 100, top 100, 100×100. -/
def rectC : Rect := { left := 100, top := 100, width := 100, height := 100 }

/-- A concrete session state ready for an edit call. -/
def editS0 : GenState :=
  { initState with generatedImage := some imgB, history := [imgB],
                   historyIndex := 0, editPrompt := "make it blue",
                   prompt := "a red cube" }

/-- A uniform grey pixel. -/
def greyPix : Pix := { r := 100, g := 100, b := 100, a := 255 }

/-- A uniform 3×3 grey bitmap. -/
def uni3 : Img := { width := 3, height := 3, data := fun _ _ => greyPix }

/-- Twenty in-window request timestamps. -/
def usage20 : List Int := (List.range 20).map (fun i => (i : Int))

/-- A uniform bitmap of one repeated pixel. -/
def uniImg (w h : Nat) (p : Pix) : Img :=
  { width := w, height := h, data := fun _ _ => p }

/-- The full-frame selection box. -/
def fullBox : SelectionBox := { x := 0, y := 0, w := 100, h := 100 }

/-- The history-pointer bound `0 ≤ pointer < length` (for non-empty
history) survives every single history operation. -/
theorem histInv_step (s : GenState) (op : HistOp)
    (h : s.history ≠ [] →
      0 ≤ s.historyIndex ∧ s.historyIndex < (s.history.length : Int)) :
    (applyHistOp s op).history ≠ [] →
      0 ≤ (applyHistOp s op).historyIndex ∧
      (applyHistOp s op).historyIndex <
        (((applyHistOp s op).history.length : Nat) : Int) := by
  cases op with
  | startNewTimeline img =>
      intro _
      simp [applyHistOp, updateHistory]
  | appendVersion img =>
      intro _
      simp only [applyHistOp, updateHistory, Bool.false_eq_true, if_false,
        List.length_append, List.length_cons, List.length_nil]
      omega
  | undo =>
      by_cases hpos : 0 < s.historyIndex
      · simp only [applyHistOp, handleUndo, if_pos hpos]
        intro hne
        have hb := h hne
        omega
      · simp only [applyHistOp, handleUndo, if_neg hpos]
        exact h
  | redo =>
      by_cases hlt : s.historyIndex < (s.history.length : Int) - 1
      · simp only [applyHistOp, handleRedo, if_pos hlt]
        intro hne
        have hb := h hne
        omega
      · simp only [applyHistOp, handleRedo, if_neg hlt]
        exact h
  | jumpTo i =>
      by_cases hin : 0 ≤ i ∧ i < (s.history.length : Int)
      · simp only [applyHistOp, jumpToHistory, if_pos hin]
        intro _
        exact hin
      · simp only [applyHistOp, jumpToHistory, if_neg hin]
        exact h

/-- The history-pointer bound is preserved by any operation sequence. -/
theorem histInv_run (ops : List HistOp) (s : GenState)
    (h : s.history ≠ [] →
      0 ≤ s.historyIndex ∧ s.historyIndex < (s.history.length : Int)) :
    (ops.foldl applyHistOp s).history ≠ [] →
      0 ≤ (ops.foldl applyHistOp s).historyIndex ∧
      (ops.foldl applyHistOp s).historyIndex <
        ((ops.foldl applyHistOp s).history.length : Int) := by
  induction ops generalizing s with
  | nil => exact h
  | cons op rest ih => exact ih (applyHistOp s op) (histInv_step s op h)

/-- C1: for every sequence of history operations from the empty history the
pointer satisfies `0 ≤ pointer < length` whenever the sequence is
non-empty; and `appendVersion` truncates the sequence to `[0..pointer]`
before appending the new image and pointing at the new last index. -/
theorem history_pointer_invariant :
    (∀ ops : List HistOp, (runHist ops).history ≠ [] →
        0 ≤ (runHist ops).historyIndex ∧
        (runHist ops).historyIndex < ((runHist ops).history.length : Int)) ∧
    (∀ (s : GenState) (img : GeneratedImage), -1 ≤ s.historyIndex →
        (applyHistOp s (HistOp.appendVersion img)).history
          = s.history.take (s.historyIndex + 1).toNat ++ [img] ∧
        (applyHistOp s (HistOp.appendVersion img)).historyIndex
          = ((s.history.take (s.historyIndex + 1).toNat ++ [img]).length : Int)
              - 1) := by
  constructor
  · intro ops
    exact histInv_run ops initState (by intro hne; simp [initState] at hne)
  · intro s img hge
    have hslice : jsSliceTo s.history (s.historyIndex + 1)
        = s.history.take (s.historyIndex + 1).toNat := by
      unfold jsSliceTo
      rw [if_neg (by omega)]
    constructor
    · simp [applyHistOp, updateHistory, hslice]
    · simp [applyHistOp, updateHistory, hslice]

/-- Witness for C1 on a concrete operation sequence. -/
theorem history_pointer_invariant_witness :
    0 ≤ (runHist opsW).historyIndex ∧
    (runHist opsW).historyIndex < ((runHist opsW).history.length : Int) :=
  history_pointer_invariant.1 opsW (by decide)

/-- C2: the rate-limit check prunes the stored timestamps to those younger
than the hour window; it allows exactly when fewer than 20 remain, and when
denying reports `ceil((oldest + 3600000 - now) / 60000)` minutes. -/
theorem checkRateLimit_spec (usage : List Int) (now : Int) :
    (checkRateLimit usage now).usage
        = usage.filter (fun t => decide (now - t < 3600000)) ∧
    (checkRateLimit usage now).allowed
        = decide
            ((usage.filter (fun t => decide (now - t < 3600000))).length < 20) ∧
    (checkRateLimit usage now).minutesUntilReset
        = (if 20 ≤ (usage.filter (fun t => decide (now - t < 3600000))).length
           then some (Int.ceil
             (((listMin (usage.filter (fun t => decide (now - t < 3600000)))
                 + 3600000 - now : Int) : ℚ) / 60000))
           else none) := by
  refine ⟨?_, ?_, ?_⟩
  · simp only [checkRateLimit, prune]
    split_ifs <;> rfl
  · simp only [checkRateLimit, prune]
    split_ifs with h
    · have hnl : ¬ ((usage.filter (fun t => decide (now - t < 3600000))).length
          < 20) := by omega
      simp [hnl]
    · have hl : (usage.filter (fun t => decide (now - t < 3600000))).length
          < 20 := by omega
      simp [hl]
  · simp only [checkRateLimit, prune]
    split_ifs with h
    · push_cast
      ring_nf
    · rfl

/-- `cleanBase64 || base64` agrees with "clean bytes when present, display
bytes otherwise" whenever the clean bytes are not the (falsy) empty
string. -/
theorem jsOrString_eq_getD (a : Option String) (b : String)
    (h : a ≠ some "") : jsOrString a b = a.getD b := by
  cases a with
  | none => rfl
  | some t =>
      have ht : t ≠ "" := fun he => h (by rw [he])
      simp [jsOrString, ht]

/-- C3: an edit sends the current version's clean bytes (display bytes when
absent) to the remote model, and stores a new version whose display bytes
are the watermarked model output and whose clean bytes are the raw model
output, the two differing whenever watermarking alters the bytes. -/
theorem edit_clean_bytes_flow (wm : String → String) (s : GenState)
    (now : Int) (gimg image : GeneratedImage)
    (himg : s.generatedImage = some gimg)
    (hep : s.editPrompt.trim ≠ "")
    (hclean : gimg.cleanBase64 ≠ some "")
    (hall : (prune s.hourlyUsage now).length < 20)
    (hwm : wm image.base64 ≠ image.base64) :
    (handleEdit wm s now (Except.ok image)).2.2
        = some (gimg.cleanBase64.getD gimg.base64) ∧
    ∃ v, (handleEdit wm s now (Except.ok image)).1.generatedImage = some v ∧
      v.base64 = wm image.base64 ∧ v.cleanBase64 = some image.base64 ∧
      v.cleanBase64 ≠ some v.base64 := by
  have hnotle : ¬ (20 ≤ (prune s.hourlyUsage now).length) := by omega
  constructor
  · simp [handleEdit, himg, hep, hnotle, jsOrString_eq_getD _ _ hclean]
  · refine ⟨wmImage wm image, ?_, rfl, rfl, ?_⟩
    · simp only [handleEdit, himg]
      rw [if_neg hep, if_neg hnotle]
      by_cases hc : ratioValueTruthy s.customRatioValue
      · simp [hc, updateHistory, wmImage]
      · simp [hc, updateHistory, wmImage]
    · simpa [wmImage] using fun he => hwm he.symm

/-- Witness for C3 at a concrete state and model result. -/
theorem edit_clean_bytes_flow_witness :
    (handleEdit wmF editS0 0 (Except.ok modelOut)).2.2
        = some (imgB.cleanBase64.getD imgB.base64) ∧
    ∃ v, (handleEdit wmF editS0 0 (Except.ok modelOut)).1.generatedImage
        = some v ∧
      v.base64 = wmF modelOut.base64 ∧ v.cleanBase64 = some modelOut.base64 ∧
      v.cleanBase64 ≠ some v.base64 :=
  edit_clean_bytes_flow wmF editS0 0 imgB modelOut (by decide)
    (by simp +decide [editS0, String.trim, Substring.trim, Substring.trimLeft,
      Substring.trimRight, Substring.takeWhileAux, Substring.takeRightWhileAux,
      String.toSubstring, Substring.toString, String.extract])
    (by decide) (by decide) (by decide)

/-- C4 counterexample: a successful outpaint on a one-image history yields
a history of length 2, not the length 3 the claim's "grows by exactly two
versions" requires. -/
theorem outpaint_single_append_cex :
    (handleOutpaint wmF extF outpaintS0 5 (Except.ok modelOut)).1.history.length
        = 2 ∧
    outpaintS0.history.length + 2 ≠ 2 := by decide

/-- C4 amended: a successful outpaint sends the extend-canvas result on the
clean bytes to the model but appends only the final watermarked filled
result, so (with the pointer at the end) history grows by exactly one. -/
theorem outpaint_appends_one_version (wm ext : String → String) (s : GenState)
    (now : Int) (gimg filled : GeneratedImage)
    (himg : s.generatedImage = some gimg)
    (hall : (prune s.hourlyUsage now).length < 20)
    (hptr : s.historyIndex + 1 = (s.history.length : Int)) :
    (handleOutpaint wm ext s now (Except.ok filled)).2.2
        = some (ext (jsOrString gimg.cleanBase64 gimg.base64)) ∧
    (handleOutpaint wm ext s now (Except.ok filled)).1.history
        = s.history ++ [wmImage wm filled] ∧
    (handleOutpaint wm ext s now (Except.ok filled)).1.history.length
        = s.history.length + 1 := by
  have hnotle : ¬ (20 ≤ (prune s.hourlyUsage now).length) := by omega
  have hs : jsSliceTo s.history (s.historyIndex + 1) = s.history := by
    unfold jsSliceTo
    rw [if_neg (by omega), hptr]
    simp
  refine ⟨?_, ?_, ?_⟩
  · simp [handleOutpaint, himg, hnotle]
  · simp [handleOutpaint, himg, hnotle, updateHistory, hs, wmImage]
  · simp [handleOutpaint, himg, hnotle, updateHistory, hs, wmImage]

/-- Witness for the amended C4 at a concrete state. -/
theorem outpaint_appends_one_version_witness :
    (handleOutpaint wmF extF outpaintS0 5 (Except.ok modelOut)).2.2
        = some (extF (jsOrString imgA.cleanBase64 imgA.base64)) ∧
    (handleOutpaint wmF extF outpaintS0 5 (Except.ok modelOut)).1.history
        = outpaintS0.history ++ [wmImage wmF modelOut] ∧
    (handleOutpaint wmF extF outpaintS0 5 (Except.ok modelOut)).1.history.length
        = outpaintS0.history.length + 1 :=
  outpaint_appends_one_version wmF extF outpaintS0 5 imgA modelOut (by decide)
    (by decide) (by decide)

/-- C6: across generate, edit and outpaint a request timestamp is appended
to the persisted usage list exactly when the pre-flight check allows and
the remote call succeeds; a thrown remote error or a pre-flight denial
leaves only the pruned list, and a denial issues no remote call. -/
theorem quota_consumed_only_on_success (wm ext : String → String)
    (s : GenState) (now : Int) (gimg r : GeneratedImage)
    (himg : s.generatedImage = some gimg)
    (hpr : s.prompt.trim ≠ "")
    (hep : s.editPrompt.trim ≠ "") :
    ((handleGenerate wm s now (Except.ok r)).1.hourlyUsage
        = if (prune s.hourlyUsage now).length < 20
          then prune s.hourlyUsage now ++ [now]
          else prune s.hourlyUsage now) ∧
    ((handleGenerate wm s now (Except.error ())).1.hourlyUsage
        = prune s.hourlyUsage now) ∧
    ((handleGenerate wm s now (Except.ok r)).2
        = decide ((prune s.hourlyUsage now).length < 20)) ∧
    ((handleGenerate wm s now (Except.error ())).2
        = decide ((prune s.hourlyUsage now).length < 20)) ∧
    ((handleEdit wm s now (Except.ok r)).1.hourlyUsage
        = if (prune s.hourlyUsage now).length < 20
          then prune s.hourlyUsage now ++ [now]
          else prune s.hourlyUsage now) ∧
    ((handleEdit wm s now (Except.error ())).1.hourlyUsage
        = prune s.hourlyUsage now) ∧
    ((handleEdit wm s now (Except.ok r)).2.1
        = decide ((prune s.hourlyUsage now).length < 20)) ∧
    ((handleOutpaint wm ext s now (Except.ok r)).1.hourlyUsage
        = if (prune s.hourlyUsage now).length < 20
          then prune s.hourlyUsage now ++ [now]
          else prune s.hourlyUsage now) ∧
    ((handleOutpaint wm ext s now (Except.error ())).1.hourlyUsage
        = prune s.hourlyUsage now) ∧
    ((handleOutpaint wm ext s now (Except.ok r)).2.1
        = decide ((prune s.hourlyUsage now).length < 20)) := by
  by_cases hq : (prune s.hourlyUsage now).length < 20
  · have hnotle : ¬ (20 ≤ (prune s.hourlyUsage now).length) := by omega
    refine ⟨?_, ?_, ?_, ?_, ?_, ?_, ?_, ?_, ?_, ?_⟩ <;>
      simp [handleGenerate, handleEdit, handleOutpaint, himg, hpr, hep, hq,
        hnotle, updateHistory, apply_ite GenState.hourlyUsage]
  · have hle : 20 ≤ (prune s.hourlyUsage now).length := by omega
    refine ⟨?_, ?_, ?_, ?_, ?_, ?_, ?_, ?_, ?_, ?_⟩ <;>
      simp [handleGenerate, handleEdit, handleOutpaint, himg, hpr, hep, hq,
        hle, updateHistory]

/-- Witness for C6 at a concrete state and remote results. -/
theorem quota_consumed_only_on_success_witness :
    ((handleGenerate wmF editS0 7 (Except.ok modelOut)).1.hourlyUsage
        = if (prune editS0.hourlyUsage 7).length < 20
          then prune editS0.hourlyUsage 7 ++ [7]
          else prune editS0.hourlyUsage 7) ∧
    ((handleGenerate wmF editS0 7 (Except.error ())).1.hourlyUsage
        = prune editS0.hourlyUsage 7) ∧
    ((handleGenerate wmF editS0 7 (Except.ok modelOut)).2
        = decide ((prune editS0.hourlyUsage 7).length < 20)) ∧
    ((handleGenerate wmF editS0 7 (Except.error ())).2
        = decide ((prune editS0.hourlyUsage 7).length < 20)) ∧
    ((handleEdit wmF editS0 7 (Except.ok modelOut)).1.hourlyUsage
        = if (prune editS0.hourlyUsage 7).length < 20
          then prune editS0.hourlyUsage 7 ++ [7]
          else prune editS0.hourlyUsage 7) ∧
    ((handleEdit wmF editS0 7 (Except.error ())).1.hourlyUsage
        = prune editS0.hourlyUsage 7) ∧
    ((handleEdit wmF editS0 7 (Except.ok modelOut)).2.1
        = decide ((prune editS0.hourlyUsage 7).length < 20)) ∧
    ((handleOutpaint wmF extF editS0 7 (Except.ok modelOut)).1.hourlyUsage
        = if (prune editS0.hourlyUsage 7).length < 20
          then prune editS0.hourlyUsage 7 ++ [7]
          else prune editS0.hourlyUsage 7) ∧
    ((handleOutpaint wmF extF editS0 7 (Except.error ())).1.hourlyUsage
        = prune editS0.hourlyUsage 7) ∧
    ((handleOutpaint wmF extF editS0 7 (Except.ok modelOut)).2.1
        = decide ((prune editS0.hourlyUsage 7).length < 20)) :=
  quota_consumed_only_on_success wmF extF editS0 7 imgB modelOut (by decide)
    (by simp +decide [editS0, String.trim, Substring.trim, Substring.trimLeft,
      Substring.trimRight, Substring.takeWhileAux, Substring.takeRightWhileAux,
      String.toSubstring, Substring.toString, String.extract])
    (by simp +decide [editS0, String.trim, Substring.trim, Substring.trimLeft,
      Substring.trimRight, Substring.takeWhileAux, Substring.takeRightWhileAux,
      String.toSubstring, Substring.toString, String.extract])

/-- C5 counterexample: a pointer-down immediately followed by a pointer-up
leaves the zero-size box active — `handlePointerUp` discards nothing, so a
degenerate box (w < 1) survives, contradicting the claimed discard. -/
theorem pointer_up_keeps_degenerate_box_cex :
    (handlePointerUp (handlePointerDown selState rectC 150 150)).selectionBox
        = some { x := 50, y := 50, w := 0, h := 0 } ∧
    (0 : ℚ) < 1 ∧
    (handlePointerUp (handlePointerDown selState rectC 150 150)).selectionBox
        ≠ none := by
  have h1 : (handlePointerUp (handlePointerDown selState rectC 150 150)).selectionBox
      = some { x := 50, y := 50, w := 0, h := 0 } := by
    norm_num [handlePointerUp, handlePointerDown, selState, rectC, initState]
  exact ⟨h1, by norm_num, by rw [h1]; simp⟩

/-- C5 amended: pointer release clears only the drag state (panning flag,
drawing flag, drag origin) and never discards the selection box, so a click
with no drag leaves a zero-size selection box active. -/
theorem pointer_up_retains_selection (s : GenState) (rect : Rect)
    (cx cy : ℚ) (gimg : GeneratedImage)
    (himg : s.generatedImage = some gimg) (htm : s.isTargetMode = true) :
    (∀ t : GenState, (handlePointerUp t).selectionBox = t.selectionBox ∧
        (handlePointerUp t).isDrawingBox = false ∧
        (handlePointerUp t).drawStart = none ∧
        (handlePointerUp t).isPanning = false) ∧
    (handlePointerUp (handlePointerDown s rect cx cy)).selectionBox
        = some { x := (cx - rect.left) / rect.width * 100, y := (cy - rect.top) / rect.height * 100, w := 0, h := 0 } := by
  constructor
  · intro t
    exact ⟨rfl, rfl, rfl, rfl⟩
  · simp [handlePointerDown, handlePointerUp, himg, htm]

/-- Witness for the amended C5 at a concrete click. -/
theorem pointer_up_retains_selection_witness :
    (∀ t : GenState, (handlePointerUp t).selectionBox = t.selectionBox ∧
        (handlePointerUp t).isDrawingBox = false ∧
        (handlePointerUp t).drawStart = none ∧
        (handlePointerUp t).isPanning = false) ∧
    (handlePointerUp (handlePointerDown selState rectC 120 180)).selectionBox
        = some { x := (120 - rectC.left) / rectC.width * 100, y := (180 - rectC.top) / rectC.height * 100, w := 0, h := 0 } :=
  pointer_up_retains_selection selState rectC 120 180 imgA rfl rfl

/-- C7 counterexample: a pointer-down outside the image rect records an
unclamped negative drag origin, and the subsequent drag yields a box with
`x = -50 < 0` and `w = 150 > 100`, violating the claimed bounds. -/
theorem selection_origin_unclamped_cex :
    (handlePointerDown selState rectC 50 150).drawStart = some (-50, 50) ∧
    (handlePointerMove (handlePointerDown selState rectC 50 150) rectC 250 150).selectionBox
        = some { x := -50, y := 50, w := 150, h := 0 } ∧
    ¬ (0 ≤ (-50 : ℚ)) ∧ ¬ ((150 : ℚ) ≤ 100) := by
  refine ⟨?_, ?_, by norm_num, by norm_num⟩ <;>
    norm_num [handlePointerDown, handlePointerMove, selState, rectC, initState]

/-- C7 amended: the drag origin is recorded unclamped at pointer-down; only
the current point is clamped during the drag.  Whenever the origin lies
inside the image (both coordinates in [0,100]), every drag update produces
a box with `0 ≤ x, y, w, h ≤ 100`, `x + w ≤ 100` and `y + h ≤ 100`. -/
theorem selection_box_bounded (s : GenState) (rect : Rect)
    (cx cy ox oy : ℚ) (gimg : GeneratedImage)
    (himg : s.generatedImage = some gimg)
    (htm : s.isTargetMode = true) (hdb : s.isDrawingBox = true)
    (hds : s.drawStart = some (ox, oy))
    (hox0 : 0 ≤ ox) (hox1 : ox ≤ 100) (hoy0 : 0 ≤ oy) (hoy1 : oy ≤ 100) :
    ∃ b : SelectionBox,
      (handlePointerMove s rect cx cy).selectionBox = some b ∧
      0 ≤ b.x ∧ 0 ≤ b.y ∧ 0 ≤ b.w ∧ 0 ≤ b.h ∧
      b.x + b.w ≤ 100 ∧ b.y + b.h ≤ 100 ∧ b.w ≤ 100 ∧ b.h ≤ 100 := by
  have hcX0 : 0 ≤ max 0 (min 100 ((cx - rect.left) / rect.width * 100)) :=
    le_max_left _ _
  have hcX1 : max 0 (min 100 ((cx - rect.left) / rect.width * 100)) ≤ 100 :=
    max_le (by norm_num) (min_le_left _ _)
  have hcY0 : 0 ≤ max 0 (min 100 ((cy - rect.top) / rect.height * 100)) :=
    le_max_left _ _
  have hcY1 : max 0 (min 100 ((cy - rect.top) / rect.height * 100)) ≤ 100 :=
    max_le (by norm_num) (min_le_left _ _)
  set cX := max 0 (min 100 ((cx - rect.left) / rect.width * 100))
  set cY := max 0 (min 100 ((cy - rect.top) / rect.height * 100))
  have hxw : min ox cX + |cX - ox| ≤ 100 := by
    rcases le_total ox cX with h | h
    · rw [min_eq_left h, abs_of_nonneg (by linarith)]
      linarith
    · rw [min_eq_right h, abs_of_nonpos (by linarith)]
      linarith
  have hyh : min oy cY + |cY - oy| ≤ 100 := by
    rcases le_total oy cY with h | h
    · rw [min_eq_left h, abs_of_nonneg (by linarith)]
      linarith
    · rw [min_eq_right h, abs_of_nonpos (by linarith)]
      linarith
  have hwle : |cX - ox| ≤ 100 := abs_le.mpr ⟨by linarith, by linarith⟩
  have hhle : |cY - oy| ≤ 100 := abs_le.mpr ⟨by linarith, by linarith⟩
  refine ⟨⟨min ox cX, min oy cY, |cX - ox|, |cY - oy|⟩, ?_,
    le_min hox0 hcX0, le_min hoy0 hcY0, abs_nonneg _, abs_nonneg _,
    hxw, hyh, hwle, hhle⟩
  simp [handlePointerMove, himg, htm, hdb, hds]

/-- Witness for the amended C7: an in-bounds origin dragged far outside the
rect still yields an in-bounds box. -/
theorem selection_box_bounded_witness :
    ∃ b : SelectionBox,
      (handlePointerMove { selState with isDrawingBox := true, drawStart := some (40, 60) } rectC 1000 (-1000)).selectionBox = some b ∧
      0 ≤ b.x ∧ 0 ≤ b.y ∧ 0 ≤ b.w ∧ 0 ≤ b.h ∧
      b.x + b.w ≤ 100 ∧ b.y + b.h ≤ 100 ∧ b.w ≤ 100 ∧ b.h ≤ 100 :=
  selection_box_bounded
    { selState with isDrawingBox := true, drawStart := some (40, 60) }
    rectC 1000 (-1000) 40 60 imgA rfl rfl rfl rfl (by norm_num) (by norm_num)
    (by norm_num) (by norm_num)

/-- On a uniform bitmap every Laplacian channel sum vanishes. -/
theorem lapSum_const (p : Pix) (w h : Nat) (ch : Pix → Nat) (x y : Nat) :
    lapSum (uniImg w h p) ch x y = 0 := by
  simp only [lapSum, uniImg]
  ring

/-- C8 counterexample: on a uniform 3×3 image the outline output's corner
pixel is the zero-initialised transparent black of `createImageData`, not
the dark background colour — only interior pixels get the background. -/
theorem outline_uniform_border_cex :
    (applyOutline uni3).data 0 0 = zeroPix ∧ zeroPix ≠ bgPix ∧
    (applyOutline uni3).data 1 1 = bgPix := by decide

/-- C8 amended: on a uniform image every INTERIOR output pixel is the fixed
dark background colour, because each per-channel Laplacian sum is zero so
the magnitude never exceeds the threshold 30; the one-pixel border is left
as the zero-initialised (transparent black) buffer contents. -/
theorem outline_uniform_interior_background (p : Pix) (w h x y : Nat)
    (hx1 : 1 ≤ x) (hx2 : x + 1 < w) (hy1 : 1 ≤ y) (hy2 : y + 1 < h) :
    lapSum (uniImg w h p) Pix.r x y = 0 ∧
    lapSum (uniImg w h p) Pix.g x y = 0 ∧
    lapSum (uniImg w h p) Pix.b x y = 0 ∧
    (applyOutline (uniImg w h p)).data x y = bgPix := by
  refine ⟨lapSum_const p w h Pix.r x y, lapSum_const p w h Pix.g x y,
    lapSum_const p w h Pix.b x y, ?_⟩
  have hcond : 1 ≤ x ∧ x + 1 < (uniImg w h p).width ∧ 1 ≤ y ∧
      y + 1 < (uniImg w h p).height := by
    refine ⟨hx1, ?_, hy1, ?_⟩ <;> simp [uniImg] <;> omega
  simp [applyOutline, hcond, lapSum_const]

/-- Witness for the amended C8 on the uniform grey 3×3 image. -/
theorem outline_uniform_interior_background_witness :
    lapSum (uniImg 3 3 greyPix) Pix.r 1 1 = 0 ∧
    lapSum (uniImg 3 3 greyPix) Pix.g 1 1 = 0 ∧
    lapSum (uniImg 3 3 greyPix) Pix.b 1 1 = 0 ∧
    (applyOutline (uniImg 3 3 greyPix)).data 1 1 = bgPix :=
  outline_uniform_interior_background greyPix 3 3 1 1 (by decide) (by decide)
    (by decide) (by decide)

/-- C9: cropping with the full-frame box `{x:0, y:0, w:100, h:100}` keeps
the source's pixel dimensions. -/
theorem crop_full_box_dims (img : Img) :
    (cropImage img fullBox).width = img.width ∧
    (cropImage img fullBox).height = img.height := by
  constructor <;> simp [cropImage, fullBox]

/-- C10: after a custom-ratio generation with ratio `0 < r < 8/9`, the seeded
crop guide is `{x:10, y:10, w:80, h:80/r}` with selection mode forced on,
and its bottom edge `y + h` exceeds 100. -/
theorem custom_ratio_seed_exceeds_bounds (r : ℚ) (h0 : 0 < r)
    (h1 : r < 8 / 9) :
    onImageChangeSeed true (some r)
        = (some { x := 10, y := 10, w := 80, h := 80 / r }, true) ∧
    100 < 10 + 80 / r := by
  have hr0 : r ≠ 0 := ne_of_gt h0
  constructor
  · simp [onImageChangeSeed, ratioValueTruthy, hr0]
  · have h90 : (90 : ℚ) < 80 / r := by
      rw [lt_div_iff₀ h0]
      nlinarith
    linarith

/-- Witness for C10 at ratio 1/2: the seeded guide has height 160. -/
theorem custom_ratio_seed_exceeds_bounds_witness :
    onImageChangeSeed true (some ((1 : ℚ) / 2))
        = (some { x := 10, y := 10, w := 80, h := 80 / ((1 : ℚ) / 2) }, true) ∧
    100 < 10 + 80 / ((1 : ℚ) / 2) :=
  custom_ratio_seed_exceeds_bounds ((1 : ℚ) / 2) (by norm_num) (by norm_num)

end Umbrax
